import Mathlib

deriving instance DecidableEq for Except

/-- The Python exception kinds the embedded code can raise. -/
inductive PyErr where
  | keyError
  | typeError
  | attributeError
  | assertionError
  deriving DecidableEq

/-- Embedding of class `MediaType`: the stored (name-mangled) attributes
`__itag`, `__file_type`, `__resolution`, `__video_format`, `__video_bitrate`,
`__audio_format`, `__audio_bitrate`. -/
structure MediaType where
  itag : Nat
  file_type : String
  resolution : Option (Nat × Nat)
  video_format : Option String
  video_bitrate : Option Nat
  audio_format : Option String
  audio_bitrate : Option Nat
  deriving DecidableEq

/-- Property `MediaType.has_video`: `self.__video_format is not None`. -/
def MediaType.has_video (m : MediaType) : Bool :=
  m.video_format.isSome

/-- Property `MediaType.has_audio`: `self.__audio_format is not None`. -/
def MediaType.has_audio (m : MediaType) : Bool :=
  m.audio_format.isSome

/-- Property `MediaType.resolution` (`assert self.has_video`, then return the
stored resolution). -/
def MediaType.resolution_prop (m : MediaType) : Except PyErr (Option (Nat × Nat)) :=
  if m.has_video then pure m.resolution else throw .assertionError

/-- Property `MediaType.video_bitrate` (`assert self.has_video`, then return
`self.__video_bitrate`). -/
def MediaType.video_bitrate_prop (m : MediaType) : Except PyErr (Option Nat) :=
  if m.has_video then pure m.video_bitrate else throw .assertionError

/-- Property `MediaType.audio_bitrate` (`assert self.has_audio`).  NOTE: the
source returns `self.__video_bitrate` here, not `self.__audio_bitrate`. -/
def MediaType.audio_bitrate_prop (m : MediaType) : Except PyErr (Option Nat) :=
  if m.has_audio then pure m.video_bitrate else throw .assertionError

/-- `VIDEO_RATING_DICT`: container ratings, higher is better. -/
def VIDEO_RATING_DICT : List (String × Nat) :=
  [("3gp", 1), ("flv", 2), ("mp4", 3), ("webm", 4)]

/-- `AUDIO_RATING_DICT`: audio codec ratings, higher is better. -/
def AUDIO_RATING_DICT : List (String × Nat) :=
  [("mp3", 1), ("aac", 2), ("vorbis", 3)]

/-- Python `dict[key]` on a string-keyed dict of ints, as an `Option`. -/
def dictLookup (d : List (String × Nat)) (k : String) : Option Nat :=
  (d.find? (fun p => p.1 == k)).map (fun p => p.2)

/-- The entries of `ITAG_MAP`, in source order.  Fields:
itag, file_type, resolution, video_format, video_bitrate (hundredths of
Mbit/s, see the header comment), audio_format, audio_bitrate (kbit/s). -/
def ITAG_MEDIA_LIST : List MediaType :=
  [ ⟨5, "flv", some (320, 240), some "Sorenson h.263", some 25, some "mp3", some 64⟩,
    ⟨6, "flv", some (400, 270), some "Sorenson h.263", some 80, some "mp3", some 64⟩,
    ⟨13, "3gp", some (400, 270), some "MPEG-4 Visual", some 50, some "aac", some 24⟩,
    ⟨17, "3gp", some (176, 144), some "MPEG-4 Visual", some 5, some "aac", some 24⟩,
    ⟨18, "mp4", some (400, 270), some "h.264", some 50, some "aac", some 96⟩,
    ⟨22, "mp4", some (1280, 720), some "h.264", some 200, some "aac", some 192⟩,
    ⟨34, "flv", some (480, 360), some "h.264", some 50, some "aac", some 128⟩,
    ⟨35, "flv", some (640, 480), some "h.264", some 80, some "aac", some 128⟩,
    ⟨36, "3gp", some (320, 240), some "MPEG-4 Visual", some 17, some "aac", some 38⟩,
    ⟨37, "mp4", some (1920, 1080), some "h.264", some 300, some "aac", some 192⟩,
    ⟨38, "mp4", some (4096, 3072), some "h.264", some 350, some "aac", some 192⟩,
    ⟨43, "webm", some (480, 360), some "vp8", some 50, some "vorbis", some 128⟩,
    ⟨44, "webm", some (640, 480), some "vp8", some 100, some "vorbis", some 128⟩,
    ⟨45, "webm", some (1280, 720), some "vp8", some 200, some "vorbis", some 192⟩,
    ⟨46, "webm", some (1920, 1080), some "vp8", some 300, some "vorbis", some 192⟩,
    ⟨82, "mp4", some (480, 360), some "h.264", some 50, some "aac", some 96⟩,
    ⟨83, "mp4", some (320, 240), some "h.264", some 50, some "aac", some 96⟩,
    ⟨84, "mp4", some (1280, 720), some "h.264", some 200, some "aac", some 152⟩,
    ⟨85, "mp4", some (576, 520), some "h.264", some 200, some "aac", some 152⟩,
    ⟨100, "webm", some (480, 360), some "vp8", some 50, some "vorbis", some 128⟩,
    ⟨101, "webm", some (480, 360), some "vp8", some 50, some "vorbis", some 192⟩,
    ⟨102, "webm", some (1280, 720), some "vp8", some 200, some "vorbis", some 192⟩,
    ⟨120, "flv", some (1280, 720), some "h.264", some 200, some "aac", some 128⟩,
    ⟨133, "mp4", some (320, 240), some "h.264", some 20, none, none⟩,
    ⟨134, "mp4", some (480, 360), some "h.264", some 30, none, none⟩,
    ⟨135, "mp4", some (640, 480), some "h.264", some 50, none, none⟩,
    ⟨136, "mp4", some (1280, 720), some "h.264", some 100, none, none⟩,
    ⟨137, "mp4", some (1920, 1080), some "h.264", some 200, none, none⟩,
    ⟨138, "mp4", some (3840, 2160), some "h.264", some 200, none, none⟩,
    ⟨139, "mp4", none, none, none, some "aac", some 48⟩,
    ⟨140, "mp4", none, none, none, some "aac", some 128⟩,
    ⟨141, "mp4", none, none, none, some "aac", some 256⟩,
    ⟨160, "mp4", some (176, 144), some "h.264", some 10, none, none⟩,
    ⟨171, "webm", none, none, none, some "vorbis", some 128⟩,
    ⟨172, "webm", none, none, none, some "vorbis", some 192⟩ ]

/-- `ITAG_MAP[itag]`, as an `Option` lookup into the catalog. -/
def ITAG_MAP (itag : Nat) : Option MediaType :=
  ITAG_MEDIA_LIST.find? (fun m => m.itag == itag)

/-- Embedding of class `DownloadInfo`: a media type plus a download URL. -/
structure DownloadInfo where
  media_type : MediaType
  url : String
  deriving DecidableEq

/-- `video_quality_key(option)`: the tuple
`(VIDEO_RATING_DICT[option.media_type.file_type],
product(option.media_type.resolution), option.media_type.video_bitrate)`.
The components are evaluated left to right, as in Python; `product(None)`
raises `TypeError`, the dict lookup of an unknown container raises
`KeyError`, and the two property accesses assert `has_video`. -/
def video_quality_key (option : DownloadInfo) : Except PyErr (Nat × Nat × Option Nat) := do
  let rating ← match dictLookup VIDEO_RATING_DICT option.media_type.file_type with
    | some r => pure r
    | none => throw PyErr.keyError
  let res ← option.media_type.resolution_prop
  let pix ← match res with
    | some wh => pure (wh.1 * wh.2)
    | none => throw PyErr.typeError
  let vb ← option.media_type.video_bitrate_prop
  pure (rating, pix, vb)

/-- `audio_quality_key(option)`: the tuple
`(AUDIO_RATING_DICT[option.media_type.audio_format],
option.media_type.audio_bitrate)`.  A `None` audio format raises `KeyError`
at the dict lookup; the `audio_bitrate` property asserts `has_audio` and
(per the source's slip) returns the stored *video* bitrate. -/
def audio_quality_key (option : DownloadInfo) : Except PyErr (Nat × Option Nat) := do
  let rating ← match option.media_type.audio_format with
    | some f =>
      match dictLookup AUDIO_RATING_DICT f with
      | some r => pure r
      | none => throw PyErr.keyError
    | none => throw PyErr.keyError
  let ab ← option.media_type.audio_bitrate_prop
  pure (rating, ab)

/-- Python `>` on two video-quality-key triples (third components may be
`None`): find the first component where the operands differ and compare
there; if that component pits `None` against a number, raise `TypeError`;
if all components are equal the tuples are equal, so `>` is `False`. -/
def vkey_gt (k1 k2 : Nat × Nat × Option Nat) : Except PyErr Bool :=
  if k1.1 ≠ k2.1 then pure (decide (k1.1 > k2.1))
  else if k1.2.1 ≠ k2.2.1 then pure (decide (k1.2.1 > k2.2.1))
  else match k1.2.2, k2.2.2 with
    | none, none => pure false
    | some b1, some b2 => pure (decide (b1 > b2))
    | _, _ => throw PyErr.typeError

/-- Python `<` on two video-quality-key triples; same scheme as `vkey_gt`. -/
def vkey_lt (k1 k2 : Nat × Nat × Option Nat) : Except PyErr Bool :=
  if k1.1 ≠ k2.1 then pure (decide (k1.1 < k2.1))
  else if k1.2.1 ≠ k2.2.1 then pure (decide (k1.2.1 < k2.2.1))
  else match k1.2.2, k2.2.2 with
    | none, none => pure false
    | some b1, some b2 => pure (decide (b1 < b2))
    | _, _ => throw PyErr.typeError

/-- Python `>` on two audio-quality-key pairs (second components may be
`None`). -/
def akey_gt (k1 k2 : Nat × Option Nat) : Except PyErr Bool :=
  if k1.1 ≠ k2.1 then pure (decide (k1.1 > k2.1))
  else match k1.2, k2.2 with
    | none, none => pure false
    | some b1, some b2 => pure (decide (b1 > b2))
    | _, _ => throw PyErr.typeError

/-- `video_quality_key` applied to a possibly-`None` variable, as in the
final comparison of `highest_quality_content`: Python first dereferences
`option.media_type`, so a `None` operand raises `AttributeError`. -/
def video_quality_key_opt : Option DownloadInfo → Except PyErr (Nat × Nat × Option Nat)
  | none => throw PyErr.attributeError
  | some o => video_quality_key o

/-- The three running maxima of the linear search in
`highest_quality_content`. -/
structure HQCState where
  highest_audio : Option DownloadInfo
  highest_video : Option DownloadInfo
  highest_audio_video : Option DownloadInfo
  deriving DecidableEq

/-- One iteration of the `for option in download_options` loop. -/
def hqcStep (st : HQCState) (option : DownloadInfo) : Except PyErr HQCState :=
  if option.media_type.has_video then do
    -- `highest_video is None or video_quality_key(option) > video_quality_key(highest_video)`
    let cond ← match st.highest_video with
      | none => pure true
      | some hv => do
        let k1 ← video_quality_key option
        let k2 ← video_quality_key hv
        vkey_gt k1 k2
    if cond then
      pure { st with
        highest_video := some option,
        highest_audio_video :=
          if option.media_type.has_audio then some option else st.highest_audio_video }
    else
      pure st
  else do
    -- `highest_audio is None or audio_quality_key(option) > audio_quality_key(highest_audio)`
    let cond ← match st.highest_audio with
      | none => pure true
      | some ha => do
        let k1 ← audio_quality_key option
        let k2 ← audio_quality_key ha
        akey_gt k1 k2
    if cond then
      pure { st with highest_audio := some option }
    else
      pure st

/-- The whole `for` loop of `highest_quality_content`. -/
def hqcScan : List DownloadInfo → HQCState → Except PyErr HQCState
  | [], st => pure st
  | o :: rest, st => do hqcScan rest (← hqcStep st o)

/-- The value returned by `highest_quality_content`: either
`highest_audio_video` (the `single` constructor, whose payload may be
Python `None`) or the tuple `(highest_video, highest_audio)` (the `pair`
constructor). -/
inductive ContentChoice where
  | single : Option DownloadInfo → ContentChoice
  | pair : Option DownloadInfo → Option DownloadInfo → ContentChoice
  deriving DecidableEq

/-- `highest_quality_content(download_options)`: the linear search followed
by the final comparison
`highest_audio is None or video_quality_key(highest_video) <
video_quality_key(highest_audio_video)`. -/
def highest_quality_content (download_options : List DownloadInfo) :
    Except PyErr ContentChoice := do
  let st ← hqcScan download_options ⟨none, none, none⟩
  match st.highest_audio with
  | none => pure (ContentChoice.single st.highest_audio_video)
  | some _ => do
    let kv ← video_quality_key_opt st.highest_video
    let kc ← video_quality_key_opt st.highest_audio_video
    let lt ← vkey_lt kv kc
    if lt then pure (ContentChoice.single st.highest_audio_video)
    else pure (ContentChoice.pair st.highest_video st.highest_audio)

/-- Catalog download option with a synthetic URL, for concrete runs. -/
def dlOpt (itag : Nat) : DownloadInfo :=
  ⟨(ITAG_MAP itag).getD ⟨0, "", none, none, none, none, none⟩, "url" ++ toString itag⟩

/-- Well-formedness of a media type, as guaranteed by every catalog entry:
a video-carrying entry has a rated container, a resolution and a video
bitrate; an entry without video is audio-only with a rated codec and no
stored video bitrate. -/
def WFMedia (m : MediaType) : Prop :=
  (m.has_video = true →
    (dictLookup VIDEO_RATING_DICT m.file_type).isSome = true ∧
    m.resolution.isSome = true ∧ m.video_bitrate.isSome = true) ∧
  (m.has_video = false →
    m.audio_format.isSome = true ∧
    (m.audio_format.bind (dictLookup AUDIO_RATING_DICT)).isSome = true ∧
    m.video_bitrate = none)

instance (m : MediaType) : Decidable (WFMedia m) := by
  unfold WFMedia
  exact inferInstance

/-- Container rating of an option (0 only off the catalog). -/
def vrating (o : DownloadInfo) : Nat :=
  (dictLookup VIDEO_RATING_DICT o.media_type.file_type).getD 0

/-- `width * height` of an option (0 only off the catalog). -/
def vpixels (o : DownloadInfo) : Nat :=
  (o.media_type.resolution.map (fun wh => wh.1 * wh.2)).getD 0

/-- Video bitrate of an option (0 only off the catalog). -/
def vbitrate (o : DownloadInfo) : Nat :=
  o.media_type.video_bitrate.getD 0

/-- The video quality key as a point of the lexicographic order on
`ℕ ×ₗ ℕ ×ₗ ℕ`. -/
def pvkey (o : DownloadInfo) : Nat ×ₗ Nat ×ₗ Nat :=
  toLex (vrating o, toLex (vpixels o, vbitrate o))

/-- Audio codec rating of an option (0 only off the catalog). -/
def parank (o : DownloadInfo) : Nat :=
  (o.media_type.audio_format.bind (dictLookup AUDIO_RATING_DICT)).getD 0

/-- Pure version of one loop iteration, total on well-formed options. -/
def stepPure (st : HQCState) (o : DownloadInfo) : HQCState :=
  if o.media_type.has_video then
    if (match st.highest_video with
        | none => true
        | some hv => decide (pvkey hv < pvkey o)) then
      { st with
        highest_video := some o
        highest_audio_video :=
          if o.media_type.has_audio then some o else st.highest_audio_video }
    else st
  else
    if (match st.highest_audio with
        | none => true
        | some ha => decide (parank o > parank ha)) then
      { st with highest_audio := some o }
    else st

/-- Pure version of the whole loop. -/
def scanPure : List DownloadInfo → HQCState → HQCState
  | [], st => st
  | o :: rest, st => scanPure rest (stepPure st o)

/-- The invariant that the scan maintains: the three trackers hold
well-formed options with the right audio/video flags, and the tracked
combined option's video key never exceeds the tracked video option's key
(it is only ever updated to the new running maximum). -/
structure ScanInv (st : HQCState) : Prop where
  hv_wf : ∀ v, st.highest_video = some v →
    WFMedia v.media_type ∧ v.media_type.has_video = true
  ha_wf : ∀ a, st.highest_audio = some a →
    WFMedia a.media_type ∧ a.media_type.has_video = false
  hav_wf : ∀ c, st.highest_audio_video = some c →
    WFMedia c.media_type ∧ c.media_type.has_video = true ∧ c.media_type.has_audio = true
  hav_le : ∀ c, st.highest_audio_video = some c →
    ∃ v, st.highest_video = some v ∧ pvkey c ≤ pvkey v

/-- Python `s.split(",")[0]`: the prefix of `s` before its first comma
(the whole of `s` when it has none).  Defined directly on the character
list so that it evaluates (the library `splitOn` is well-founded
recursive and does not reduce in the kernel). -/
def split_comma_head (s : String) : String :=
  String.mk (s.data.takeWhile (fun c => c != ','))

/-- `full_url(base_url, sig)` from `download_options_from_stream_map`:
`"{}&signature={}&fallback_host={}".format(base_url, sig.split(",")[0],
fallback_host)`. -/
def full_url (fallback_host base_url sig : String) : String :=
  base_url ++ "&signature=" ++ split_comma_head sig ++ "&fallback_host=" ++ fallback_host

/-- `download_options_from_stream_map`, given the already-parsed
`stream_map` lists `itag`, `url`, `sig` and the shared `fallback_host`:
the generator zips the itag and url lists with `cycle(sig_list)` (an
empty cycle yields nothing, so the result is empty when no signature is
present) and produces, per entry, `ITAG_MAP[int(itag.split(",")[0])]`
(`None` modelling the `KeyError`/`ValueError` on an unknown or
unparsable tag) together with the full URL. -/
def download_options_from_stream_map (itag_list url_list sig_list : List String)
    (fallback_host : String) : List (Option MediaType × String) :=
  if sig_list.isEmpty then []
  else
    (itag_list.zip url_list).enum.map (fun p =>
      (((split_comma_head p.2.1).toNat?.bind ITAG_MAP,
        full_url fallback_host p.2.2 (sig_list.getD (p.1 % sig_list.length) ""))))

/-- A naive UTC datetime as carried by a `FeedItem` (the feed parser uses
`%Y-%m-%dT%H:%M:%S.000Z`, so its microseconds are always zero, though the
class accepts any `datetime`). -/
structure Datetime where
  year : Int
  month : Nat
  day : Nat
  hour : Nat
  minute : Nat
  second : Nat
  microsecond : Nat
  deriving DecidableEq

/-- Days from 1970-01-01 of a proleptic-Gregorian civil date (the
standard civil-calendar algorithm; `Int` division here truncates toward
zero exactly as the reference formulation expects). -/
def days_from_civil (y : Int) (m d : Nat) : Int :=
  let yy := if m ≤ 2 then y - 1 else y
  let era := (if 0 ≤ yy then yy else yy - 399) / 400
  let yoe := yy - era * 400
  let mp := (m + 9) % 12
  let doy : Int := (153 * (mp : Int) + 2) / 5 + (d : Int) - 1
  let doe := yoe * 365 + yoe / 4 - yoe / 100 + doy
  era * 146097 + doe - 719468

/-- `calendar.timegm(datetime_obj.timetuple())`: whole seconds since the
Unix epoch of a UTC datetime. -/
def timegm (dt : Datetime) : Int :=
  days_from_civil dt.year dt.month dt.day * 86400 +
    dt.hour * 3600 + dt.minute * 60 + dt.second

/-- `to_epoch(datetime_obj)`: seconds since the epoch with the
microsecond part kept exactly
(`timegm(...) + datetime_obj.microsecond / 1000000`; the Python-3
`timestamp()` branch is modelled as the same UTC conversion). -/
def to_epoch (dt : Datetime) : Rat :=
  mkRat (timegm dt * 1000000 + dt.microsecond) 1000000

/-- Python `int(...)` applied to a number: truncation toward zero. -/
def py_int (q : Rat) : Int :=
  q.num / (q.den : Int)

/-- Embedding of class `FeedItem`. -/
structure FeedItem where
  video_id : String
  upload_time : Datetime
  title : String
  description : String
  deriving DecidableEq

/-- The dict produced by `FeedItem.to_json`. -/
structure FeedItemJson where
  video_id : String
  upload_time : Rat
  title : String
  description : String
  deriving DecidableEq

/-- `FeedItem.to_json`. -/
def FeedItem.to_json (f : FeedItem) : FeedItemJson :=
  ⟨f.video_id, to_epoch f.upload_time, f.title, f.description⟩

/-- The dict produced by `MediaType.to_json` (the raw stored fields). -/
structure MediaTypeJson where
  itag : Nat
  file_type : String
  resolution : Option (Nat × Nat)
  video_format : Option String
  video_bitrate : Option Nat
  audio_format : Option String
  audio_bitrate : Option Nat
  deriving DecidableEq

/-- `MediaType.to_json`. -/
def MediaType.to_json (m : MediaType) : MediaTypeJson :=
  ⟨m.itag, m.file_type, m.resolution, m.video_format, m.video_bitrate,
    m.audio_format, m.audio_bitrate⟩

/-- The dict produced by `DownloadInfo.to_json` (only the media type; the
transient URL is deliberately not persisted). -/
structure DownloadInfoJson where
  media_type : MediaTypeJson
  deriving DecidableEq

/-- `DownloadInfo.to_json`. -/
def DownloadInfo.to_json (d : DownloadInfo) : DownloadInfoJson :=
  ⟨d.media_type.to_json⟩

/-- `JSON_FORMAT_VERSION`. -/
def JSON_FORMAT_VERSION : String := "1.1"

/-- The object written by the final `json.dump` in `download_feed_item`. -/
structure SidecarJson where
  version : String
  content : List DownloadInfoJson
  feed_item : FeedItemJson
  deriving DecidableEq

/-- `base_filename_for_feed_item`:
`"{}_{}".format(int(to_epoch(feed_item.upload_time)), feed_item.video_id)`. -/
def base_filename_for_feed_item (feed_item : FeedItem) : String :=
  toString (py_int (to_epoch feed_item.upload_time)) ++ "_" ++ feed_item.video_id

/-- Contents of a file in the modelled file system. -/
inductive FileData where
  | media (data : String)
  | sidecar (j : SidecarJson)
  deriving DecidableEq

/-- The file system: a map from paths to file contents. -/
def FS : Type := String → Option FileData

/-- `open(p, "wb")` + write: create or overwrite. -/
def FS.write (fs : FS) (p : String) (d : FileData) : FS :=
  fun q => if q = p then some d else fs q

/-- `os.remove(p)`. -/
def FS.remove (fs : FS) (p : String) : FS :=
  fun q => if q = p then none else fs q

/-- Network operations performed by one acquisition, in order. -/
inductive NetOp where
  | fetchInfo (video_id : String)
  | fetchUrl (url : String)
  deriving DecidableEq

/-- The environment fixing the nondeterministic outcomes of one call:
what the video-info fetch yields, which URL transfers succeed and what
data they produce, and whether the ffmpeg remux exits successfully. -/
structure Env where
  info : List DownloadInfo
  transfer_ok : String → Bool
  transfer_data : String → String
  remux_ok : Bool

/-- Errors of the acquisition routine: a propagated Python exception from
the selection stage, a failed transfer (the worker's exception, re-raised
from the exception queue), or a non-zero ffmpeg exit
(`CalledProcessError`). -/
inductive DLErr where
  | py (e : PyErr)
  | transferError
  | remuxError
  deriving DecidableEq

/-- The metadata sidecar path `<dir>/<epoch>_<videoId>.json`. -/
def json_filename_for (base_directory : String) (feed_item : FeedItem) : String :=
  base_directory ++ "/" ++ base_filename_for_feed_item feed_item ++ ".json"

/-- The media path `<dir>/<epoch>_<videoId>.<ext>`. -/
def video_filename_for (base_directory : String) (feed_item : FeedItem)
    (ext : String) : String :=
  base_directory ++ "/" ++ base_filename_for_feed_item feed_item ++ "." ++ ext

/-- Deterministic stand-in for the first `tempfile.mkstemp(prefix=
base_filename)` path of the split download. -/
def temp_video_name (feed_item : FeedItem) : String :=
  "/tmp/" ++ base_filename_for_feed_item feed_item ++ "_video"

/-- Deterministic stand-in for the second `tempfile.mkstemp` path. -/
def temp_audio_name (feed_item : FeedItem) : String :=
  "/tmp/" ++ base_filename_for_feed_item feed_item ++ "_audio"

/-- The final `json.dump` of `download_feed_item`. -/
def write_sidecar (fs : FS) (json_filename : String)
    (content : List DownloadInfoJson) (feed_item : FeedItem) : FS :=
  FS.write fs json_filename (.sidecar ⟨JSON_FORMAT_VERSION, content, feed_item.to_json⟩)

/-- `download_feed_item(feed_item, base_directory)` over the modelled
file system: returns the result (`.ok none` is the already-present early
return, `.ok (some (video_filename, json_filename))` the success value),
the final file system, and the network operations performed, in order.
The remuxed output's bytes are modelled as the concatenation of the two
transferred streams (their exact value is irrelevant to every claim). -/
def download_feed_item (env : Env) (feed_item : FeedItem) (base_directory : String)
    (fs : FS) : Except DLErr (Option (String × String)) × FS × List NetOp :=
  let json_filename := json_filename_for base_directory feed_item
  if (fs json_filename).isSome then
    -- Stop here, we already have this video.
    (.ok none, fs, [])
  else
    let ops := [NetOp.fetchInfo feed_item.video_id]
    match highest_quality_content env.info with
    | .error e => (.error (.py e), fs, ops)
    | .ok content =>
      match content with
      | .single none => (.error (.py .attributeError), fs, ops)
      | .single (some video_content) =>
        if video_content.media_type.has_video = false then
          (.error (.py .assertionError), fs, ops)
        else
          let video_filename :=
            video_filename_for base_directory feed_item video_content.media_type.file_type
          let fs1 := if (fs video_filename).isSome then FS.remove fs video_filename else fs
          let ops2 := ops ++ [NetOp.fetchUrl video_content.url]
          if env.transfer_ok video_content.url then
            let fs2 :=
              FS.write fs1 video_filename (.media (env.transfer_data video_content.url))
            (.ok (some (video_filename, json_filename)),
              write_sidecar fs2 json_filename [video_content.to_json] feed_item, ops2)
          else
            (.error .transferError, fs1, ops2)
      | .pair v? a? =>
        match v? with
        | none => (.error (.py .attributeError), fs, ops)
        | some video_content =>
          if video_content.media_type.has_video = false then
            (.error (.py .assertionError), fs, ops)
          else
            let video_filename :=
              video_filename_for base_directory feed_item video_content.media_type.file_type
            let fs1 := if (fs video_filename).isSome then FS.remove fs video_filename else fs
            let tmpv := temp_video_name feed_item
            let tmpa := temp_audio_name feed_item
            let fs2 := FS.write (FS.write fs1 tmpv (.media "")) tmpa (.media "")
            match a? with
            | none =>
              -- `content[1].url` dereferences None inside the `try`; the
              -- `finally` still removes both temporary files.
              (.error (.py .attributeError), FS.remove (FS.remove fs2 tmpv) tmpa, ops)
            | some audio_content =>
              let ops2 := ops ++
                [NetOp.fetchUrl video_content.url, NetOp.fetchUrl audio_content.url]
              let okv := env.transfer_ok video_content.url
              let oka := env.transfer_ok audio_content.url
              let fs3 := FS.write
                (FS.write fs2 tmpv
                  (.media (if okv then env.transfer_data video_content.url else "")))
                tmpa (.media (if oka then env.transfer_data audio_content.url else ""))
              if okv && oka then
                if env.remux_ok then
                  let fs4 := FS.write fs3 video_filename
                    (.media (env.transfer_data video_content.url ++
                      env.transfer_data audio_content.url))
                  let fs5 := FS.remove (FS.remove fs4 tmpv) tmpa
                  (.ok (some (video_filename, json_filename)),
                    write_sidecar fs5 json_filename
                      [video_content.to_json, audio_content.to_json] feed_item, ops2)
                else
                  (.error .remuxError, FS.remove (FS.remove fs3 tmpv) tmpa, ops2)
              else
                (.error .transferError, FS.remove (FS.remove fs3 tmpv) tmpa, ops2)

/-- One attempt's outcome in the per-item loop. -/
inductive ItemOutcome where
  | success (feed_result : Option (String × String))
  | timeoutError
  | httpError (code : Nat)
  | otherError
  deriving DecidableEq

/-- The outcomes the loop swallows: a `socket.timeout`, or an `HTTPError`
whose status is 403, 400 or 503. -/
def retryable : ItemOutcome → Bool
  | .timeoutError => true
  | .httpError code => code == 403 || code == 400 || code == 503
  | _ => false

/-- Result of the `while True` retry loop over a finite prefix of attempt
outcomes; `slept` totals the seconds spent in `time.sleep(3)` calls. -/
inductive LoopResult where
  | done (feed_result : Option (String × String)) (slept : Nat)
  | raised (o : ItemOutcome) (slept : Nat)
  | stillRetrying (slept : Nat)
  deriving DecidableEq

/-- The `while True` loop around `download_feed_item` in
`download_videos_for_user`: `except (socket.timeout, HTTPError)` swallows
a timeout or an HTTP 403/400/503 (then sleeps 3 seconds and retries),
re-raises any other `HTTPError`, and catches nothing else. -/
def item_retry_loop : List ItemOutcome → Nat → LoopResult
  | [], slept => .stillRetrying slept
  | o :: rest, slept =>
    match o with
    | .success r => .done r slept
    | .timeoutError => item_retry_loop rest (slept + 3)
    | .httpError code =>
      if code ≠ 403 ∧ code ≠ 400 ∧ code ≠ 503 then .raised (.httpError code) slept
      else item_retry_loop rest (slept + 3)
    | .otherError => .raised .otherError slept

/-- Concrete feed item: uploaded exactly at the Unix epoch. -/
def testItem : FeedItem :=
  ⟨"abcdefghijk", ⟨1970, 1, 1, 0, 0, 0, 0⟩, "title", "desc"⟩

/-- The empty file system. -/
def emptyFS : FS := fun _ => none

/-- Environment whose info fetch yields one combined option. -/
def testEnvSingle : Env :=
  ⟨[dlOpt 22], fun _ => true, fun _ => "DATA", true⟩

/-- Environment whose info fetch yields a split selection
(combined itag 37 plus audio-only itag 140). -/
def testEnvSplit : Env :=
  ⟨[dlOpt 37, dlOpt 140], fun _ => true, fun _ => "DATA", true⟩

theorem catalog_wf : ∀ m ∈ ITAG_MEDIA_LIST, WFMedia m := by decide

/-- The lexicographic order on quality-key triples, componentwise. -/
theorem lex3_lt_iff (r1 p1 b1 r2 p2 b2 : Nat) :
    toLex (r1, toLex (p1, b1)) < toLex (r2, toLex (p2, b2)) ↔
      r1 < r2 ∨ r1 = r2 ∧ (p1 < p2 ∨ p1 = p2 ∧ b1 < b2) := by
  rw [Prod.Lex.lt_iff]
  simp [Prod.Lex.lt_iff]

/-- The lexicographic `≤` on quality-key triples, componentwise. -/
theorem lex3_le_iff (r1 p1 b1 r2 p2 b2 : Nat) :
    toLex (r1, toLex (p1, b1)) ≤ toLex (r2, toLex (p2, b2)) ↔
      r1 < r2 ∨ r1 = r2 ∧ (p1 < p2 ∨ p1 = p2 ∧ b1 ≤ b2) := by
  rw [Prod.Lex.le_iff]
  simp [Prod.Lex.le_iff]

theorem video_quality_key_eq_of_wf (o : DownloadInfo) (hwf : WFMedia o.media_type)
    (hv : o.media_type.has_video = true) :
    video_quality_key o = .ok (vrating o, vpixels o, some (vbitrate o)) := by
  obtain ⟨h1, -⟩ := hwf
  obtain ⟨hr, hres, hb⟩ := h1 hv
  obtain ⟨r, hr⟩ := Option.isSome_iff_exists.mp hr
  obtain ⟨res, hres⟩ := Option.isSome_iff_exists.mp hres
  obtain ⟨b, hb⟩ := Option.isSome_iff_exists.mp hb
  simp [video_quality_key, MediaType.resolution_prop, MediaType.video_bitrate_prop,
    hv, hr, hres, hb, vrating, vpixels, vbitrate, pure, Except.pure, Bind.bind, Except.bind]

theorem audio_quality_key_eq_of_wf (o : DownloadInfo) (hwf : WFMedia o.media_type)
    (hv : o.media_type.has_video = false) :
    audio_quality_key o = .ok (parank o, none) := by
  obtain ⟨-, h2⟩ := hwf
  obtain ⟨haf, hrk, hvb⟩ := h2 hv
  obtain ⟨f, hf⟩ := Option.isSome_iff_exists.mp haf
  rw [hf] at hrk
  obtain ⟨r, hr⟩ := Option.isSome_iff_exists.mp hrk
  have hha : o.media_type.has_audio = true := by
    simp [MediaType.has_audio, hf]
  simp [audio_quality_key, MediaType.audio_bitrate_prop, hha, hf,
    Option.bind_eq_some] at hr ⊢
  simp [hr, hvb, parank, hf, pure, Except.pure, Bind.bind, Except.bind]

theorem vkey_gt_eq (r1 p1 b1 r2 p2 b2 : Nat) :
    vkey_gt (r1, p1, some b1) (r2, p2, some b2) =
      .ok (decide (toLex (r2, toLex (p2, b2)) < toLex (r1, toLex (p1, b1)))) := by
  simp only [vkey_gt]
  split_ifs with h1 h2
  · simp only [pure, Except.pure, Except.ok.injEq]
    rw [decide_eq_decide, lex3_lt_iff]
    omega
  · simp only [pure, Except.pure, Except.ok.injEq]
    rw [decide_eq_decide, lex3_lt_iff]
    omega
  · simp only [pure, Except.pure, Except.ok.injEq]
    rw [decide_eq_decide, lex3_lt_iff]
    omega

theorem vkey_lt_eq (r1 p1 b1 r2 p2 b2 : Nat) :
    vkey_lt (r1, p1, some b1) (r2, p2, some b2) =
      .ok (decide (toLex (r1, toLex (p1, b1)) < toLex (r2, toLex (p2, b2)))) := by
  simp only [vkey_lt]
  split_ifs with h1 h2
  · simp only [pure, Except.pure, Except.ok.injEq]
    rw [decide_eq_decide, lex3_lt_iff]
    omega
  · simp only [pure, Except.pure, Except.ok.injEq]
    rw [decide_eq_decide, lex3_lt_iff]
    omega
  · simp only [pure, Except.pure, Except.ok.injEq]
    rw [decide_eq_decide, lex3_lt_iff]
    omega

theorem akey_gt_none (r1 r2 : Nat) :
    akey_gt (r1, none) (r2, none) = .ok (decide (r1 > r2)) := by
  simp only [akey_gt]
  split_ifs with h1
  · rfl
  · simp only [pure, Except.pure, Except.ok.injEq]
    rw [eq_comm, decide_eq_false_iff_not]
    omega

theorem scanInv_init : ScanInv ⟨none, none, none⟩ := by
  constructor <;> intro x hx <;> simp_all

theorem hqcStep_eq_stepPure (st : HQCState) (o : DownloadInfo)
    (hwf : WFMedia o.media_type) (hinv : ScanInv st) :
    hqcStep st o = .ok (stepPure st o) := by
  by_cases hv : o.media_type.has_video
  · rw [hqcStep, stepPure, if_pos hv, if_pos hv]
    cases hhv : st.highest_video with
    | none => simp [pure, Except.pure, Bind.bind, Except.bind]
    | some v0 =>
      obtain ⟨hwf0, hv0⟩ := hinv.hv_wf v0 hhv
      simp only [video_quality_key_eq_of_wf o hwf hv, video_quality_key_eq_of_wf v0 hwf0 hv0,
        vkey_gt_eq, pvkey, pure, Except.pure, Bind.bind, Except.bind]
      split <;> rfl
  · have hv' : o.media_type.has_video = false := by simpa using hv
    rw [hqcStep, stepPure, if_neg hv, if_neg hv]
    cases hha : st.highest_audio with
    | none => simp [pure, Except.pure, Bind.bind, Except.bind]
    | some a0 =>
      obtain ⟨hwf0, ha0⟩ := hinv.ha_wf a0 hha
      simp only [audio_quality_key_eq_of_wf o hwf hv', audio_quality_key_eq_of_wf a0 hwf0 ha0,
        akey_gt_none, pure, Except.pure, Bind.bind, Except.bind]
      split <;> rfl

theorem stepPure_inv (st : HQCState) (o : DownloadInfo)
    (hwf : WFMedia o.media_type) (hinv : ScanInv st) : ScanInv (stepPure st o) := by
  by_cases hv : o.media_type.has_video
  · rw [stepPure, if_pos hv]
    split
    · rename_i hcond
      refine ⟨?_, ?_, ?_, ?_⟩
      · intro v h
        cases h
        exact ⟨hwf, hv⟩
      · intro a h
        exact hinv.ha_wf a h
      · intro c h
        by_cases hau : o.media_type.has_audio
        · rw [if_pos hau] at h
          cases h
          exact ⟨hwf, hv, hau⟩
        · rw [if_neg hau] at h
          exact hinv.hav_wf c h
      · intro c h
        by_cases hau : o.media_type.has_audio
        · rw [if_pos hau] at h
          cases h
          exact ⟨o, rfl, le_refl _⟩
        · rw [if_neg hau] at h
          obtain ⟨v0, hv0, hle⟩ := hinv.hav_le c h
          refine ⟨o, rfl, ?_⟩
          rw [hv0] at hcond
          simp only [decide_eq_true_eq] at hcond
          exact le_of_lt (lt_of_le_of_lt hle hcond)
    · exact hinv
  · have hv' : o.media_type.has_video = false := by simpa using hv
    rw [stepPure, if_neg hv]
    split
    · refine ⟨?_, ?_, ?_, ?_⟩
      · intro v h
        exact hinv.hv_wf v h
      · intro a h
        cases h
        exact ⟨hwf, hv'⟩
      · intro c h
        exact hinv.hav_wf c h
      · intro c h
        exact hinv.hav_le c h
    · exact hinv

theorem hqcScan_eq_scanPure (opts : List DownloadInfo) : ∀ st : HQCState,
    (∀ o ∈ opts, WFMedia o.media_type) → ScanInv st →
    hqcScan opts st = .ok (scanPure opts st) ∧ ScanInv (scanPure opts st) := by
  induction opts with
  | nil => intro st _ hinv; exact ⟨rfl, hinv⟩
  | cons o rest ih =>
    intro st hwf hinv
    have hwo : WFMedia o.media_type := hwf o (by simp)
    have hwr : ∀ x ∈ rest, WFMedia x.media_type := fun x hx => hwf x (by simp [hx])
    have hstep := hqcStep_eq_stepPure st o hwo hinv
    have hinv2 := stepPure_inv st o hwo hinv
    obtain ⟨h1, h2⟩ := ih (stepPure st o) hwr hinv2
    refine ⟨?_, h2⟩
    rw [hqcScan, hstep]
    simpa using h1

theorem stepPure_hv_cases (st : HQCState) (o : DownloadInfo) :
    (stepPure st o).highest_video = st.highest_video ∨
    (stepPure st o).highest_video = some o := by
  rw [stepPure]
  split
  · split
    · right; rfl
    · left; rfl
  · split
    · left; rfl
    · left; rfl

theorem stepPure_ha_cases (st : HQCState) (o : DownloadInfo) :
    (stepPure st o).highest_audio = st.highest_audio ∨
    ((stepPure st o).highest_audio = some o ∧ o.media_type.has_video = false) := by
  rw [stepPure]
  split
  · rename_i hv
    split
    · left; rfl
    · left; rfl
  · rename_i hv
    split
    · right
      exact ⟨rfl, by simpa using hv⟩
    · left; rfl

theorem stepPure_hav_cases (st : HQCState) (o : DownloadInfo) :
    (stepPure st o).highest_audio_video = st.highest_audio_video ∨
    (stepPure st o).highest_audio_video = some o := by
  rw [stepPure]
  split
  · split
    · by_cases hau : o.media_type.has_audio
      · right
        simp [hau]
      · left
        simp [hau]
    · left; rfl
  · split
    · left; rfl
    · left; rfl

theorem scanPure_origin (opts : List DownloadInfo) : ∀ st : HQCState,
    (∀ x, (scanPure opts st).highest_video = some x →
      st.highest_video = some x ∨ x ∈ opts) ∧
    (∀ x, (scanPure opts st).highest_audio = some x →
      st.highest_audio = some x ∨ x ∈ opts) ∧
    (∀ x, (scanPure opts st).highest_audio_video = some x →
      st.highest_audio_video = some x ∨ x ∈ opts) := by
  induction opts with
  | nil => intro st; exact ⟨fun x h => Or.inl h, fun x h => Or.inl h, fun x h => Or.inl h⟩
  | cons o rest ih =>
    intro st
    obtain ⟨ihv, iha, ihav⟩ := ih (stepPure st o)
    refine ⟨fun x h => ?_, fun x h => ?_, fun x h => ?_⟩
    · rcases ihv x h with h2 | h2
      · rcases stepPure_hv_cases st o with hc | hc
        · exact Or.inl (hc ▸ h2)
        · rw [hc] at h2
          cases h2
          exact Or.inr (by simp)
      · exact Or.inr (by simp [h2])
    · rcases iha x h with h2 | h2
      · rcases stepPure_ha_cases st o with hc | ⟨hc, -⟩
        · exact Or.inl (hc ▸ h2)
        · rw [hc] at h2
          cases h2
          exact Or.inr (by simp)
      · exact Or.inr (by simp [h2])
    · rcases ihav x h with h2 | h2
      · rcases stepPure_hav_cases st o with hc | hc
        · exact Or.inl (hc ▸ h2)
        · rw [hc] at h2
          cases h2
          exact Or.inr (by simp)
      · exact Or.inr (by simp [h2])

theorem stepPure_hv_isSome (st : HQCState) (o : DownloadInfo)
    (h : st.highest_video.isSome = true) :
    (stepPure st o).highest_video.isSome = true := by
  rcases stepPure_hv_cases st o with hc | hc <;> simp [hc, h]

theorem stepPure_hv_new (st : HQCState) (o : DownloadInfo)
    (h : o.media_type.has_video = true) :
    (stepPure st o).highest_video.isSome = true := by
  rw [stepPure, if_pos h]
  split
  · rfl
  · rename_i hcond
    cases hhv : st.highest_video with
    | none => rw [hhv] at hcond; simp at hcond
    | some v => simp [hhv]

theorem stepPure_ha_isSome (st : HQCState) (o : DownloadInfo)
    (h : st.highest_audio.isSome = true) :
    (stepPure st o).highest_audio.isSome = true := by
  rcases stepPure_ha_cases st o with hc | ⟨hc, -⟩ <;> simp [hc, h]

theorem stepPure_ha_new (st : HQCState) (o : DownloadInfo)
    (h : o.media_type.has_video = false) :
    (stepPure st o).highest_audio.isSome = true := by
  rw [stepPure, if_neg (by simp [h])]
  split
  · rfl
  · rename_i hcond
    cases hha : st.highest_audio with
    | none => rw [hha] at hcond; simp at hcond
    | some a => simp [hha]

theorem scanPure_hv_isSome (opts : List DownloadInfo) : ∀ st : HQCState,
    (st.highest_video.isSome = true ∨ ∃ o ∈ opts, o.media_type.has_video = true) →
    (scanPure opts st).highest_video.isSome = true := by
  induction opts with
  | nil =>
    intro st h
    rcases h with h | ⟨o, ho, -⟩
    · exact h
    · cases ho
  | cons o rest ih =>
    intro st h
    rw [scanPure]
    apply ih
    rcases h with h | ⟨x, hx, hvx⟩
    · exact Or.inl (stepPure_hv_isSome st o h)
    · rcases List.mem_cons.mp hx with rfl | hx
      · exact Or.inl (stepPure_hv_new st x hvx)
      · exact Or.inr ⟨x, hx, hvx⟩

theorem scanPure_ha_isSome (opts : List DownloadInfo) : ∀ st : HQCState,
    (st.highest_audio.isSome = true ∨ ∃ o ∈ opts, o.media_type.has_video = false) →
    (scanPure opts st).highest_audio.isSome = true := by
  induction opts with
  | nil =>
    intro st h
    rcases h with h | ⟨o, ho, -⟩
    · exact h
    · cases ho
  | cons o rest ih =>
    intro st h
    rw [scanPure]
    apply ih
    rcases h with h | ⟨x, hx, hvx⟩
    · exact Or.inl (stepPure_ha_isSome st o h)
    · rcases List.mem_cons.mp hx with rfl | hx
      · exact Or.inl (stepPure_ha_new st x hvx)
      · exact Or.inr ⟨x, hx, hvx⟩

theorem scanPure_ha_none (opts : List DownloadInfo) : ∀ st : HQCState,
    (scanPure opts st).highest_audio.isSome = true →
    st.highest_audio.isSome = true ∨ ∃ o ∈ opts, o.media_type.has_video = false := by
  induction opts with
  | nil => intro st h; exact Or.inl h
  | cons o rest ih =>
    intro st h
    rcases ih (stepPure st o) h with h2 | ⟨x, hx, hvx⟩
    · rcases stepPure_ha_cases st o with hc | ⟨-, hvo⟩
      · rw [hc] at h2
        exact Or.inl h2
      · exact Or.inr ⟨o, by simp, hvo⟩
    · exact Or.inr ⟨x, by simp [hx], hvx⟩

/-- After a step, the tracked best video dominates both the previous
tracker and (if it has video) the processed option. -/
theorem stepPure_hv_max (st : HQCState) (o : DownloadInfo) (v2 : DownloadInfo)
    (h : (stepPure st o).highest_video = some v2) :
    (∀ v0, st.highest_video = some v0 → pvkey v0 ≤ pvkey v2) ∧
    (o.media_type.has_video = true → pvkey o ≤ pvkey v2) := by
  rw [stepPure] at h
  by_cases hv : o.media_type.has_video
  · rw [if_pos hv] at h
    by_cases hcond : (match st.highest_video with
        | none => true
        | some hv => decide (pvkey hv < pvkey o)) = true
    · rw [if_pos hcond] at h
      cases h
      refine ⟨fun v0 hv0 => ?_, fun _ => le_refl _⟩
      rw [hv0] at hcond
      simp only [decide_eq_true_eq] at hcond
      exact le_of_lt hcond
    · rw [if_neg hcond] at h
      refine ⟨fun v0 hv0 => ?_, fun _ => ?_⟩
      · rw [hv0] at h
        cases h
        exact le_refl _
      · cases hhv : st.highest_video with
        | none => rw [hhv] at hcond; simp at hcond
        | some v1 =>
          rw [hhv] at h hcond
          cases h
          simp only [decide_eq_true_eq] at hcond
          exact le_of_not_lt hcond
  · rw [if_neg hv] at h
    have : (match st.highest_audio with
        | none => true
        | some ha => decide (parank o > parank ha)) = true ∨
        (match st.highest_audio with
        | none => true
        | some ha => decide (parank o > parank ha)) = false := by
      cases (match st.highest_audio with
        | none => true
        | some ha => decide (parank o > parank ha)) <;> simp
    have hvst : st.highest_video = some v2 := by
      rcases this with hc | hc
      · rw [if_pos hc] at h
        exact h
      · rw [hc] at h
        simp at h
        exact h
    refine ⟨fun v0 hv0 => ?_, fun hvo => ?_⟩
    · rw [hv0] at hvst
      cases hvst
      exact le_refl _
    · rw [hvo] at hv
      simp at hv

theorem scanPure_hv_max (opts : List DownloadInfo) : ∀ (st : HQCState) (v2 : DownloadInfo),
    (scanPure opts st).highest_video = some v2 →
    (∀ o ∈ opts, o.media_type.has_video = true → pvkey o ≤ pvkey v2) ∧
    (∀ v0, st.highest_video = some v0 → pvkey v0 ≤ pvkey v2) := by
  induction opts with
  | nil =>
    intro st v2 h
    refine ⟨fun o ho => absurd ho (List.not_mem_nil o), fun v0 hv0 => ?_⟩
    rw [scanPure] at h
    rw [h] at hv0
    cases hv0
    exact le_refl _
  | cons o rest ih =>
    intro st v2 h
    obtain ⟨ih1, ih2⟩ := ih (stepPure st o) v2 h
    constructor
    · intro x hx hvx
      rcases List.mem_cons.mp hx with rfl | hx2
      · obtain ⟨v1, hv1⟩ := Option.isSome_iff_exists.mp (stepPure_hv_new st x hvx)
        exact le_trans ((stepPure_hv_max st x v1 hv1).2 hvx) (ih2 v1 hv1)
      · exact ih1 x hx2 hvx
    · intro v0 hv0
      obtain ⟨v1, hv1⟩ :=
        Option.isSome_iff_exists.mp (stepPure_hv_isSome st o (by simp [hv0]))
      exact le_trans ((stepPure_hv_max st o v1 hv1).1 v0 hv0) (ih2 v1 hv1)

/-- After a step, the tracked best audio dominates (by codec rank, the only
part the buggy audio key can compare) both the previous tracker and, if
audio-only, the processed option. -/
theorem stepPure_ha_max (st : HQCState) (o : DownloadInfo) (a2 : DownloadInfo)
    (h : (stepPure st o).highest_audio = some a2) :
    (∀ a0, st.highest_audio = some a0 → parank a0 ≤ parank a2) ∧
    (o.media_type.has_video = false → parank o ≤ parank a2) := by
  rw [stepPure] at h
  by_cases hv : o.media_type.has_video
  · rw [if_pos hv] at h
    have hast : st.highest_audio = some a2 := by
      by_cases hcond : (match st.highest_video with
          | none => true
          | some hv => decide (pvkey hv < pvkey o)) = true
      · rw [if_pos hcond] at h
        exact h
      · rw [if_neg hcond] at h
        exact h
    refine ⟨fun a0 ha0 => ?_, fun hvo => ?_⟩
    · rw [ha0] at hast
      cases hast
      exact le_refl _
    · rw [hvo] at hv
      simp at hv
  · rw [if_neg hv] at h
    by_cases hcond : (match st.highest_audio with
        | none => true
        | some ha => decide (parank o > parank ha)) = true
    · rw [if_pos hcond] at h
      cases h
      refine ⟨fun a0 ha0 => ?_, fun _ => le_refl _⟩
      rw [ha0] at hcond
      simp only [decide_eq_true_eq] at hcond
      exact le_of_lt hcond
    · rw [if_neg hcond] at h
      refine ⟨fun a0 ha0 => ?_, fun _ => ?_⟩
      · rw [ha0] at h
        cases h
        exact le_refl _
      · cases hha : st.highest_audio with
        | none => rw [hha] at hcond; simp at hcond
        | some a1 =>
          rw [hha] at h hcond
          cases h
          simp only [decide_eq_true_eq] at hcond
          exact le_of_not_lt hcond

theorem scanPure_ha_max (opts : List DownloadInfo) : ∀ (st : HQCState) (a2 : DownloadInfo),
    (scanPure opts st).highest_audio = some a2 →
    (∀ o ∈ opts, o.media_type.has_video = false → parank o ≤ parank a2) ∧
    (∀ a0, st.highest_audio = some a0 → parank a0 ≤ parank a2) := by
  induction opts with
  | nil =>
    intro st a2 h
    refine ⟨fun o ho => absurd ho (List.not_mem_nil o), fun a0 ha0 => ?_⟩
    rw [scanPure] at h
    rw [h] at ha0
    cases ha0
    exact le_refl _
  | cons o rest ih =>
    intro st a2 h
    obtain ⟨ih1, ih2⟩ := ih (stepPure st o) a2 h
    constructor
    · intro x hx hvx
      rcases List.mem_cons.mp hx with rfl | hx2
      · obtain ⟨a1, ha1⟩ := Option.isSome_iff_exists.mp (stepPure_ha_new st x hvx)
        exact le_trans ((stepPure_ha_max st x a1 ha1).2 hvx) (ih2 a1 ha1)
      · exact ih1 x hx2 hvx
    · intro a0 ha0
      obtain ⟨a1, ha1⟩ :=
        Option.isSome_iff_exists.mp (stepPure_ha_isSome st o (by simp [ha0]))
      exact le_trans ((stepPure_ha_max st o a1 ha1).1 a0 ha0) (ih2 a1 ha1)

/-- An option without video leaves the video trackers untouched. -/
theorem stepPure_novideo_fields (st : HQCState) (o : DownloadInfo)
    (h : o.media_type.has_video = false) :
    (stepPure st o).highest_video = st.highest_video ∧
    (stepPure st o).highest_audio_video = st.highest_audio_video := by
  rw [stepPure, if_neg (by simp [h])]
  split
  · exact ⟨rfl, rfl⟩
  · exact ⟨rfl, rfl⟩

/-- A video option that does not beat the current tracker changes nothing. -/
theorem stepPure_nochange (st : HQCState) (o : DownloadInfo)
    (hv : o.media_type.has_video = true) (v0 : DownloadInfo)
    (hv0 : st.highest_video = some v0) (hle : pvkey o ≤ pvkey v0) :
    stepPure st o = st := by
  rw [stepPure, if_pos hv, hv0]
  rw [if_neg]
  simp only [decide_eq_true_eq]
  exact not_lt.mpr hle

/-- A combined option that beats the current tracker takes over both the
video tracker and the combined tracker. -/
theorem stepPure_take (st : HQCState) (o : DownloadInfo)
    (hv : o.media_type.has_video = true) (hau : o.media_type.has_audio = true)
    (hcond : ∀ v0, st.highest_video = some v0 → pvkey v0 < pvkey o) :
    (stepPure st o).highest_video = some o ∧
    (stepPure st o).highest_audio_video = some o := by
  rw [stepPure, if_pos hv]
  cases hhv : st.highest_video with
  | none =>
    rw [if_pos rfl]
    exact ⟨rfl, by simp [hau]⟩
  | some v0 =>
    rw [if_pos (by simp [hcond v0 hhv])]
    exact ⟨rfl, by simp [hau]⟩

/-- Once the video and combined trackers hold an option that no later
video-carrying option strictly beats, they keep it to the end. -/
theorem scanPure_stable (opts : List DownloadInfo) : ∀ (st : HQCState) (ostar : DownloadInfo),
    st.highest_video = some ostar → st.highest_audio_video = some ostar →
    (∀ o ∈ opts, o.media_type.has_video = true → pvkey o ≤ pvkey ostar) →
    (scanPure opts st).highest_video = some ostar ∧
    (scanPure opts st).highest_audio_video = some ostar := by
  induction opts with
  | nil => intro st ostar h1 h2 _; exact ⟨h1, h2⟩
  | cons o rest ih =>
    intro st ostar h1 h2 hle
    rw [scanPure]
    by_cases hv : o.media_type.has_video
    · rw [stepPure_nochange st o hv ostar h1 (hle o (by simp) hv)]
      exact ih st ostar h1 h2 (fun x hx => hle x (by simp [hx]))
    · have hv' : o.media_type.has_video = false := by simpa using hv
      obtain ⟨e1, e2⟩ := stepPure_novideo_fields st o hv'
      exact ih (stepPure st o) ostar (e1.trans h1) (e2.trans h2)
        (fun x hx => hle x (by simp [hx]))

/-- If some combined option strictly dominates (in video key) every other
video-carrying option of the input, the scan ends with both the video and
the combined tracker holding it. -/
theorem scanPure_dominant (opts : List DownloadInfo) : ∀ (st : HQCState) (ostar : DownloadInfo),
    ostar.media_type.has_video = true → ostar.media_type.has_audio = true →
    (∀ v0, st.highest_video = some v0 → pvkey v0 < pvkey ostar) →
    ostar ∈ opts →
    (∀ o ∈ opts, o.media_type.has_video = true → o = ostar ∨ pvkey o < pvkey ostar) →
    (scanPure opts st).highest_video = some ostar ∧
    (scanPure opts st).highest_audio_video = some ostar := by
  induction opts with
  | nil => intro st ostar _ _ _ hmem _; cases hmem
  | cons o rest ih =>
    intro st ostar hv hau hlt hmem hdom
    rw [scanPure]
    by_cases heq : o = ostar
    · subst heq
      obtain ⟨t1, t2⟩ := stepPure_take st o hv hau hlt
      apply scanPure_stable rest (stepPure st o) o t1 t2
      intro x hx hvx
      rcases hdom x (by simp [hx]) hvx with h | h
      · exact h ▸ le_refl _
      · exact le_of_lt h
    · have hmem2 : ostar ∈ rest := by
        rcases List.mem_cons.mp hmem with h | h
        · exact absurd h.symm heq
        · exact h
      apply ih (stepPure st o) ostar hv hau ?_ hmem2
        (fun x hx => hdom x (by simp [hx]))
      intro v1 hv1
      by_cases hov : o.media_type.has_video
      · rcases stepPure_hv_cases st o with hc | hc
        · exact hlt v1 (hc ▸ hv1)
        · rw [hc] at hv1
          injection hv1 with hv1e
          subst hv1e
          rcases hdom o (by simp) hov with h | h
          · exact absurd h heq
          · exact h
      · have hov' : o.media_type.has_video = false := by simpa using hov
        obtain ⟨e1, -⟩ := stepPure_novideo_fields st o hov'
        exact hlt v1 (e1 ▸ hv1)

/-- Under well-formedness the selector runs the pure scan, then: with no
audio-only option seen it returns the combined tracker (possibly Python
`None`); with one seen it returns the `(highest_video, highest_audio)`
pair when both video-side trackers are defined and raises
`AttributeError` when either is `None` (the final key comparison
dereferences them). -/
theorem hqc_run (opts : List DownloadInfo) (hwf : ∀ o ∈ opts, WFMedia o.media_type) :
    highest_quality_content opts =
      (match (scanPure opts ⟨none, none, none⟩).highest_audio,
          (scanPure opts ⟨none, none, none⟩).highest_video,
          (scanPure opts ⟨none, none, none⟩).highest_audio_video with
       | none, _, _ =>
         .ok (.single (scanPure opts ⟨none, none, none⟩).highest_audio_video)
       | some _, none, _ => .error .attributeError
       | some _, some _, none => .error .attributeError
       | some a, some v, some _ => .ok (.pair (some v) (some a))) := by
  obtain ⟨hscan, hinv⟩ := hqcScan_eq_scanPure opts ⟨none, none, none⟩ hwf scanInv_init
  rw [highest_quality_content]
  rw [hscan]
  simp only [Bind.bind, Except.bind]
  cases hha : (scanPure opts ⟨none, none, none⟩).highest_audio with
  | none => rfl
  | some a =>
    cases hhv : (scanPure opts ⟨none, none, none⟩).highest_video with
    | none => rfl
    | some v =>
      cases hhav : (scanPure opts ⟨none, none, none⟩).highest_audio_video with
      | none =>
        obtain ⟨hwfv, hvv⟩ := hinv.hv_wf v hhv
        simp only [video_quality_key_opt, video_quality_key_eq_of_wf v hwfv hvv]
      | some c =>
        obtain ⟨hwfv, hvv⟩ := hinv.hv_wf v hhv
        obtain ⟨hwfc, hvc, -⟩ := hinv.hav_wf c hhav
        obtain ⟨v2, hv2, hle⟩ := hinv.hav_le c hhav
        rw [hhv] at hv2
        injection hv2 with hv2e
        subst hv2e
        simp only [video_quality_key_opt, video_quality_key_eq_of_wf v hwfv hvv,
          video_quality_key_eq_of_wf c hwfc hvc, vkey_lt_eq]
        have hfalse : decide (toLex (vrating v, toLex (vpixels v, vbitrate v)) <
            toLex (vrating c, toLex (vpixels c, vbitrate c))) = false := by
          simp only [decide_eq_false_iff_not]
          exact not_lt.mpr hle
        simp [hfalse, pure, Except.pure, Bind.bind, Except.bind]

/-- C1 (amended): for well-formed download options among which some
combined (audio+video) option strictly dominates every other
video-carrying option in video quality key, the selector returns
`Combined(that option)` exactly when no audio-only option exists;
as soon as an audio-only option exists it returns the Split pair —
in particular it prefers Split, not Combined, when the best combined
and best video keys coincide (they are the same option here). -/
theorem c1_combined_iff_no_audio_only (opts : List DownloadInfo) (ostar : DownloadInfo)
    (hwf : ∀ o ∈ opts, WFMedia o.media_type)
    (hmem : ostar ∈ opts) (hv : ostar.media_type.has_video = true)
    (hau : ostar.media_type.has_audio = true)
    (hdom : ∀ o ∈ opts, o.media_type.has_video = true →
      o = ostar ∨ pvkey o < pvkey ostar) :
    ((∀ o ∈ opts, o.media_type.has_video = true) →
      highest_quality_content opts = .ok (.single (some ostar))) ∧
    ((∃ o ∈ opts, o.media_type.has_video = false) →
      ∃ a ∈ opts, a.media_type.has_video = false ∧
        highest_quality_content opts = .ok (.pair (some ostar) (some a))) := by
  obtain ⟨hscan, hinv⟩ := hqcScan_eq_scanPure opts ⟨none, none, none⟩ hwf scanInv_init
  obtain ⟨hv2, hav2⟩ := scanPure_dominant opts ⟨none, none, none⟩ ostar hv hau
    (fun v0 h => by cases h) hmem hdom
  rw [hqc_run opts hwf]
  constructor
  · intro hall
    have hha : (scanPure opts ⟨none, none, none⟩).highest_audio = none := by
      cases hha : (scanPure opts ⟨none, none, none⟩).highest_audio with
      | none => rfl
      | some a =>
        rcases scanPure_ha_none opts ⟨none, none, none⟩ (by simp [hha]) with h | ⟨o, ho, hvo⟩
        · simp at h
        · rw [hall o ho] at hvo
          cases hvo
    rw [hha, hav2]
  · intro ⟨o, ho, hvo⟩
    have hsome := scanPure_ha_isSome opts ⟨none, none, none⟩ (Or.inr ⟨o, ho, hvo⟩)
    obtain ⟨a, hha⟩ := Option.isSome_iff_exists.mp hsome
    have hamem : a ∈ opts := by
      rcases (scanPure_origin opts ⟨none, none, none⟩).2.1 a hha with h | h
      · simp at h
      · exact h
    obtain ⟨-, hva⟩ := hinv.ha_wf a hha
    refine ⟨a, hamem, hva, ?_⟩
    rw [hha, hv2, hav2]

/-- C1 (counterexample to the claim as stated): on
`[itag 22 (combined mp4 720p), itag 140 (audio-only aac)]` the best
combined option and the best video-carrying option are the same itag-22
option, so the claim's "combined key is not lower than video key"
condition holds (the keys are equal), yet the selector returns the Split
pair rather than the Combined option. -/
theorem c1_counterexample :
    highest_quality_content [dlOpt 22, dlOpt 140] =
      .ok (.pair (some (dlOpt 22)) (some (dlOpt 140))) ∧
    (dlOpt 22).media_type.has_video = true ∧
    (dlOpt 22).media_type.has_audio = true ∧
    (dlOpt 140).media_type.has_video = false := by decide

/-- C1 witness: the amended theorem applied to
`[itag 37 (combined mp4 1080p), itag 140 (audio-only)]`. -/
theorem c1_witness :
    ∃ a ∈ [dlOpt 37, dlOpt 140], a.media_type.has_video = false ∧
      highest_quality_content [dlOpt 37, dlOpt 140] =
        .ok (.pair (some (dlOpt 37)) (some a)) :=
  (c1_combined_iff_no_audio_only [dlOpt 37, dlOpt 140] (dlOpt 37)
    (by decide) (by decide) (by decide) (by decide) (by decide)).2
    ⟨dlOpt 140, by decide, by decide⟩

/-- C9 (amended): at the end of the pass the tracked best-combined
option's video key never strictly exceeds the tracked best-video option's
key; consequently, whenever the input contains an audio-only option *and*
the combined tracker ended up defined, the selector returns the Split pair
`(tracked best video, tracked best audio)` — never a Combined option —
where the video component dominates every video-carrying option's key and
the audio component dominates every audio-only option's codec rank.
(When an audio-only option is present but no combined option was ever
promoted, the selector instead raises `AttributeError`; see the
counterexample.) -/
theorem c9_split_when_combined_tracked (opts : List DownloadInfo)
    (hwf : ∀ o ∈ opts, WFMedia o.media_type) :
    (∀ st2, hqcScan opts ⟨none, none, none⟩ = .ok st2 →
      ∀ v c, st2.highest_video = some v → st2.highest_audio_video = some c →
        pvkey c ≤ pvkey v) ∧
    ((∃ o ∈ opts, o.media_type.has_video = false) →
      ∀ v c, (scanPure opts ⟨none, none, none⟩).highest_video = some v →
        (scanPure opts ⟨none, none, none⟩).highest_audio_video = some c →
        ∃ a, a ∈ opts ∧ a.media_type.has_video = false ∧
          highest_quality_content opts = .ok (.pair (some v) (some a)) ∧
          (∀ o ∈ opts, o.media_type.has_video = true → pvkey o ≤ pvkey v) ∧
          (∀ o ∈ opts, o.media_type.has_video = false → parank o ≤ parank a)) := by
  obtain ⟨hscan, hinv⟩ := hqcScan_eq_scanPure opts ⟨none, none, none⟩ hwf scanInv_init
  constructor
  · intro st2 hst2 v c hv hc
    rw [hscan] at hst2
    injection hst2 with hst2e
    subst hst2e
    obtain ⟨v2, hv2, hle⟩ := hinv.hav_le c hc
    rw [hv] at hv2
    injection hv2 with hv2e
    subst hv2e
    exact hle
  · intro ⟨o, ho, hvo⟩ v c hhv hhav
    have hsome := scanPure_ha_isSome opts ⟨none, none, none⟩ (Or.inr ⟨o, ho, hvo⟩)
    obtain ⟨a, hha⟩ := Option.isSome_iff_exists.mp hsome
    have hamem : a ∈ opts := by
      rcases (scanPure_origin opts ⟨none, none, none⟩).2.1 a hha with h | h
      · simp at h
      · exact h
    obtain ⟨-, hva⟩ := hinv.ha_wf a hha
    refine ⟨a, hamem, hva, ?_, ?_, ?_⟩
    · rw [hqc_run opts hwf, hha, hhv, hhav]
    · exact fun x hx hvx => (scanPure_hv_max opts ⟨none, none, none⟩ v hhv).1 x hx hvx
    · exact fun x hx hvx => (scanPure_ha_max opts ⟨none, none, none⟩ a hha).1 x hx hvx

/-- C9 (counterexample to the claim as stated): the input
`[itag 137 (video-only mp4 1080p), itag 140 (audio-only aac)]` contains an
option with video and an audio-only option, yet the selector does not
return the Split pair: no combined option was ever tracked, so the final
comparison dereferences `None` and raises `AttributeError`. -/
theorem c9_counterexample :
    highest_quality_content [dlOpt 137, dlOpt 140] = .error .attributeError ∧
    (dlOpt 137).media_type.has_video = true ∧
    (dlOpt 140).media_type.has_video = false := by decide

/-- C9 witness: the amended theorem applied to
`[itag 37 (combined), itag 140 (audio-only)]`. -/
theorem c9_witness :
    ∃ a, a ∈ [dlOpt 37, dlOpt 140] ∧ a.media_type.has_video = false ∧
      highest_quality_content [dlOpt 37, dlOpt 140] =
        .ok (.pair (some (dlOpt 37)) (some a)) ∧
      (∀ o ∈ [dlOpt 37, dlOpt 140], o.media_type.has_video = true →
        pvkey o ≤ pvkey (dlOpt 37)) ∧
      (∀ o ∈ [dlOpt 37, dlOpt 140], o.media_type.has_video = false →
        parank o ≤ parank a) :=
  (c9_split_when_combined_tracked [dlOpt 37, dlOpt 140] (by decide)).2
    ⟨dlOpt 140, by decide, by decide⟩ (dlOpt 37) (dlOpt 37) (by decide) (by decide)

/-- C10 (amended): comparing two well-formed audio-only options of equal
codec rank does *not* raise: both audio quality keys have `None` as their
second component, Python's tuple comparison finds the components equal
(`None == None`), and the later option fails the strict test, so the scan
keeps the earlier option and the step returns normally. -/
theorem c10_equal_rank_audio_keeps_first (st : HQCState) (o1 o2 : DownloadInfo)
    (hwf1 : WFMedia o1.media_type) (hwf2 : WFMedia o2.media_type)
    (h1 : o1.media_type.has_video = false) (h2 : o2.media_type.has_video = false)
    (heq : parank o1 = parank o2)
    (hst : st.highest_audio = some o1) :
    hqcStep st o2 = .ok st := by
  rw [hqcStep, if_neg (by simp [h2]), hst]
  simp only [audio_quality_key_eq_of_wf o2 hwf2 h2, audio_quality_key_eq_of_wf o1 hwf1 h1,
    akey_gt_none, Bind.bind, Except.bind, pure, Except.pure]
  rw [if_neg]
  simp only [decide_eq_true_eq]
  omega

/-- C10 (counterexample to the claim as stated): with the catalog's two
Vorbis audio-only entries 171 and 172 in the input, the audio key
comparison evaluates to `False` without raising (both keys are
`(3, None)` and the missing values compare equal), and the selector
returns an ordinary Selection whenever a combined option is present; on
the bare pair `[171, 172]` it does fail, but with `AttributeError` from
dereferencing the absent best-video tracker, not with a type error from
ordering two missing values. -/
theorem c10_counterexample :
    audio_quality_key (dlOpt 171) = .ok (3, none) ∧
    audio_quality_key (dlOpt 172) = .ok (3, none) ∧
    akey_gt (3, none) (3, none) = .ok false ∧
    highest_quality_content [dlOpt 22, dlOpt 171, dlOpt 172] =
      .ok (.pair (some (dlOpt 22)) (some (dlOpt 171))) ∧
    highest_quality_content [dlOpt 171, dlOpt 172] = .error .attributeError := by
  decide

/-- C10 witness: the amended theorem applied to the state tracking
itag 171 with itag 172 arriving. -/
theorem c10_witness :
    hqcStep ⟨some (dlOpt 171), none, none⟩ (dlOpt 172) =
      .ok ⟨some (dlOpt 171), none, none⟩ :=
  c10_equal_rank_audio_keeps_first ⟨some (dlOpt 171), none, none⟩ (dlOpt 171) (dlOpt 172)
    (by decide) (by decide) (by decide) (by decide) (by decide) rfl

/-- C2 (code bug evidence): the `audio_bitrate` property returns the
stored *video* bitrate, so the audio quality key's second component is
the video bitrate — `0.25` Mbit/s (embedded as `25`) for the itag-5
option instead of its cataloged 64 kbit/s audio bitrate, and `None` for
the audio-only itag-140 option instead of its cataloged 128 kbit/s. -/
theorem c2_audio_bitrate_bug :
    audio_quality_key (dlOpt 5) = .ok (1, some 25) ∧
    (dlOpt 5).media_type.audio_bitrate = some 64 ∧
    audio_quality_key (dlOpt 140) = .ok (2, none) ∧
    (dlOpt 140).media_type.audio_bitrate = some 128 := by decide

/-- C3: for any two well-formed video-carrying options, the selector's
video comparison equals the lexicographic comparison of the tuples
`(containerRank, width*height, videoBitrate)` (and never raises); in
particular a WebM option always outranks an MP4 option — for any
resolutions and bitrates, hence for WebM 1920x1080 vs MP4 1280x720
regardless of their bitrates. -/
theorem c3_video_key_lex (o1 o2 : DownloadInfo)
    (h1 : WFMedia o1.media_type) (h2 : WFMedia o2.media_type)
    (hv1 : o1.media_type.has_video = true) (hv2 : o2.media_type.has_video = true) :
    (do
      let k1 ← video_quality_key o1
      let k2 ← video_quality_key o2
      vkey_gt k1 k2) = .ok (decide (pvkey o2 < pvkey o1)) ∧
    (o1.media_type.file_type = "webm" → o2.media_type.file_type = "mp4" →
      (do
        let k1 ← video_quality_key o1
        let k2 ← video_quality_key o2
        vkey_gt k1 k2) = .ok true) := by
  have hmain : (do
      let k1 ← video_quality_key o1
      let k2 ← video_quality_key o2
      vkey_gt k1 k2) = .ok (decide (pvkey o2 < pvkey o1)) := by
    simp only [video_quality_key_eq_of_wf o1 h1 hv1, video_quality_key_eq_of_wf o2 h2 hv2,
      vkey_gt_eq, pvkey, Bind.bind, Except.bind]
  refine ⟨hmain, fun hft1 hft2 => ?_⟩
  rw [hmain]
  have : decide (pvkey o2 < pvkey o1) = true := by
    simp only [decide_eq_true_eq, pvkey, lex3_lt_iff]
    left
    rw [vrating, vrating, hft1, hft2]
    decide
  rw [this]

/-- C3 witness: itag 46 (WebM 1920x1080, bitrate 3 Mbit/s) against
itag 22 (MP4 1280x720, bitrate 2 Mbit/s). -/
theorem c3_witness :
    (do
      let k1 ← video_quality_key (dlOpt 46)
      let k2 ← video_quality_key (dlOpt 22)
      vkey_gt k1 k2) = .ok (decide (pvkey (dlOpt 22) < pvkey (dlOpt 46))) ∧
    ((dlOpt 46).media_type.file_type = "webm" → (dlOpt 22).media_type.file_type = "mp4" →
      (do
        let k1 ← video_quality_key (dlOpt 46)
        let k2 ← video_quality_key (dlOpt 22)
        vkey_gt k1 k2) = .ok true) :=
  c3_video_key_lex (dlOpt 46) (dlOpt 22) (by decide) (by decide) (by decide) (by decide)

/-- C4: the stream-map extractor produces one entry per `(itag, url)`
pair; entry `i` is built from the base URL with the comma-stripped
signature number `i mod |sigs|` (so a single shared signature is reused
cyclically for every entry) and the shared fallback host appended as the
`signature` and `fallback_host` query parameters; and a signature
carrying a `,quality=...` suffix yields the same URL as the bare
signature (the suffix is stripped before use). -/
theorem c4_stream_map (itag_list url_list sig_list : List String) (fallback_host : String)
    (hs : sig_list ≠ []) :
    (download_options_from_stream_map itag_list url_list sig_list fallback_host).length =
      (itag_list.zip url_list).length ∧
    (∀ i : Nat, (download_options_from_stream_map itag_list url_list sig_list fallback_host)[i]? =
      ((itag_list.zip url_list)[i]?).map (fun p : String × String =>
        ((split_comma_head p.1).toNat?.bind ITAG_MAP,
          full_url fallback_host p.2 (sig_list.getD (i % sig_list.length) "")))) ∧
    (sig_list.length = 1 →
      ∀ i : Nat, (download_options_from_stream_map itag_list url_list sig_list fallback_host)[i]? =
        ((itag_list.zip url_list)[i]?).map (fun p : String × String =>
          ((split_comma_head p.1).toNat?.bind ITAG_MAP,
            full_url fallback_host p.2 (sig_list.headD "")))) ∧
    (∀ base_url, full_url fallback_host base_url "SIG,quality=high" =
      full_url fallback_host base_url "SIG") := by
  have hne : sig_list.isEmpty = false := by
    cases sig_list with
    | nil => exact absurd rfl hs
    | cons s t => rfl
  have hidx : ∀ i : Nat,
      (download_options_from_stream_map itag_list url_list sig_list fallback_host)[i]? =
      ((itag_list.zip url_list)[i]?).map (fun p : String × String =>
        ((split_comma_head p.1).toNat?.bind ITAG_MAP,
          full_url fallback_host p.2 (sig_list.getD (i % sig_list.length) ""))) := by
    intro i
    rw [download_options_from_stream_map, if_neg (by simp [hne])]
    rw [List.getElem?_map, List.getElem?_enum]
    cases hz : (itag_list.zip url_list)[i]? with
    | none => rfl
    | some p => rfl
  refine ⟨?_, hidx, ?_, ?_⟩
  · rw [download_options_from_stream_map, if_neg (by simp [hne])]
    rw [List.length_map, List.enum_length]
  · intro hlen i
    rw [hidx i]
    have h1 : i % sig_list.length = 0 := by
      rw [hlen, Nat.mod_one]
    rw [h1]
    cases sig_list with
    | nil => exact absurd rfl hs
    | cons s t => rfl
  · intro base_url
    have h1 : split_comma_head "SIG,quality=high" = "SIG" := by decide
    have h2 : split_comma_head "SIG" = "SIG" := by decide
    rw [full_url, full_url, h1, h2]

/-- C4 witness: two entries sharing one suffixed signature. -/
theorem c4_witness :
    (download_options_from_stream_map ["22", "140"] ["u1", "u2"]
      ["SIG,quality=high"] "fb")[1]? =
      (([("22", "u1"), ("140", "u2")] : List (String × String))[1]?).map
        (fun p : String × String =>
          ((split_comma_head p.1).toNat?.bind ITAG_MAP,
            full_url "fb" p.2 (["SIG,quality=high"].headD ""))) :=
  (c4_stream_map ["22", "140"] ["u1", "u2"] ["SIG,quality=high"] "fb"
    (by decide)).2.2.1 (by decide) 1

/-- A prefix of retryable outcomes is skipped, sleeping 3 seconds per
attempt. -/
theorem item_retry_loop_skip (pre : List ItemOutcome) :
    ∀ (tail : List ItemOutcome) (n : Nat), (∀ o ∈ pre, retryable o = true) →
    item_retry_loop (pre ++ tail) n = item_retry_loop tail (n + 3 * pre.length) := by
  induction pre with
  | nil => intro tail n _; simp
  | cons o rest ih =>
    intro tail n h
    have ho := h o (by simp)
    have hrest : ∀ x ∈ rest, retryable x = true := fun x hx => h x (by simp [hx])
    cases o with
    | success r => simp [retryable] at ho
    | timeoutError =>
      rw [List.cons_append, item_retry_loop, ih tail (n + 3) hrest]
      congr 1
      simp [List.length_cons]
      omega
    | httpError code =>
      have hcode : code = 403 ∨ code = 400 ∨ code = 503 := by
        simp [retryable] at ho
        omega
      have hnot : ¬(code ≠ 403 ∧ code ≠ 400 ∧ code ≠ 503) := by
        omega
      rw [List.cons_append, item_retry_loop]
      rw [if_neg hnot, ih tail (n + 3) hrest]
      congr 1
      simp [List.length_cons]
      omega
    | otherError => simp [retryable] at ho

/-- C7: during the per-item loop, every attempt ending in a timeout or an
HTTP error with status in the fixed set {403, 400, 503} is swallowed and
retried after a 3-second sleep — a run of such outcomes only accumulates
sleep time and the loop keeps going — while a success ends the loop with
its value and any other error terminates it by propagating, in each case
after exactly 3 seconds of sleep per swallowed attempt. -/
theorem c7_retry_policy :
    (∀ attempts : List ItemOutcome, (∀ o ∈ attempts, retryable o = true) →
      item_retry_loop attempts 0 = .stillRetrying (3 * attempts.length)) ∧
    (∀ (pre rest : List ItemOutcome) (r : Option (String × String)),
      (∀ o ∈ pre, retryable o = true) →
      item_retry_loop (pre ++ .success r :: rest) 0 = .done r (3 * pre.length)) ∧
    (∀ (pre rest : List ItemOutcome) (o : ItemOutcome),
      (∀ x ∈ pre, retryable x = true) →
      retryable o = false → (∀ r, o ≠ .success r) →
      item_retry_loop (pre ++ o :: rest) 0 = .raised o (3 * pre.length)) := by
  refine ⟨?_, ?_, ?_⟩
  · intro attempts h
    have := item_retry_loop_skip attempts [] 0 h
    rw [List.append_nil] at this
    rw [this, item_retry_loop]
    simp
  · intro pre rest r h
    rw [item_retry_loop_skip pre (.success r :: rest) 0 h]
    simp [item_retry_loop]
  · intro pre rest o h hnr hns
    rw [item_retry_loop_skip pre (o :: rest) 0 h]
    cases o with
    | success r => exact absurd rfl (hns r)
    | timeoutError => simp [retryable] at hnr
    | httpError code =>
      have hcode : code ≠ 403 ∧ code ≠ 400 ∧ code ≠ 503 := by
        simp [retryable] at hnr
        omega
      rw [item_retry_loop, if_pos hcode]
      simp
    | otherError => simp [item_retry_loop]

/-- C7 witness: two swallowed attempts then a success; one swallowed
attempt then a fatal HTTP 404; two swallowed attempts with the loop still
going. -/
theorem c7_witness :
    item_retry_loop [.timeoutError, .httpError 503, .success none] 0 = .done none 6 ∧
    item_retry_loop [.timeoutError, .httpError 404] 0 = .raised (.httpError 404) 3 ∧
    item_retry_loop [.timeoutError, .timeoutError] 0 = .stillRetrying 6 :=
  ⟨c7_retry_policy.2.1 [.timeoutError, .httpError 503] [] none (by decide),
   c7_retry_policy.2.2 [.timeoutError] [] (.httpError 404) (by decide) (by decide)
     (fun r => by simp),
   c7_retry_policy.1 [.timeoutError, .timeoutError] (by decide)⟩

theorem FS.write_self (fs : FS) (p : String) (d : FileData) : FS.write fs p d p = some d := by
  simp [FS.write]

theorem FS.write_other (fs : FS) (p : String) (d : FileData) (q : String) (h : q ≠ p) :
    FS.write fs p d q = fs q := by
  simp [FS.write, h]

theorem FS.remove_none (fs : FS) (p q : String) (h : fs q = none) :
    FS.remove fs p q = none := by
  unfold FS.remove
  split
  · rfl
  · exact h

theorem FS.remove_remove_left (fs : FS) (p q : String) :
    FS.remove (FS.remove fs p) q p = none := by
  unfold FS.remove
  split
  · rfl
  · simp

theorem FS.remove_remove_right (fs : FS) (p q : String) :
    FS.remove (FS.remove fs p) q q = none := by
  unfold FS.remove
  simp

/-- Every successful acquisition ends by writing the metadata sidecar —
version tag, acquired content, and the feed item's own `to_json` — at the
deterministic sidecar path. -/
theorem write_sidecar_self (fs : FS) (json_filename : String)
    (content : List DownloadInfoJson) (feed_item : FeedItem) :
    write_sidecar fs json_filename content feed_item json_filename =
      some (.sidecar ⟨JSON_FORMAT_VERSION, content, feed_item.to_json⟩) := by
  simp [write_sidecar, FS.write_self]

theorem dfi_success_sidecar (env : Env) (feed_item : FeedItem) (base_directory : String)
    (fs : FS) (x : String × String) (fs2 : FS) (ops : List NetOp)
    (h : download_feed_item env feed_item base_directory fs = (.ok (some x), fs2, ops)) :
    ∃ content, fs2 (json_filename_for base_directory feed_item) =
      some (.sidecar ⟨JSON_FORMAT_VERSION, content, feed_item.to_json⟩) := by
  simp only [download_feed_item] at h
  split at h
  · simp at h
  · split at h
    · simp at h
    · split at h
      · simp at h
      · -- Combined: the single-download path.
        split at h
        · simp at h
        · split at h
          · simp only [Prod.mk.injEq] at h
            obtain ⟨-, h2, -⟩ := h
            subst h2
            exact ⟨_, write_sidecar_self _ _ _ _⟩
          · simp at h
      · -- Split: the two-temporary-files path.
        split at h
        · simp at h
        · split at h
          · simp at h
          · split at h
            · simp at h
            · split at h
              · split at h
                · simp only [Prod.mk.injEq] at h
                  obtain ⟨-, h2, -⟩ := h
                  subst h2
                  exact ⟨_, write_sidecar_self _ _ _ _⟩
                · simp at h
              · simp at h

/-- C5: if the metadata sidecar named from the item's upload epoch and
identifier already exists, `download_feed_item` returns the
already-present sentinel (`None`), leaves the file system — hence both
the existing media file and metadata file — untouched, and performs no
network operation; consequently, after any successful acquisition a
second call on the same item and directory (under any network
environment) does no network I/O and changes nothing. -/
theorem c5_already_present_short_circuit (env : Env) (feed_item : FeedItem)
    (base_directory : String) (fs : FS) :
    ((fs (json_filename_for base_directory feed_item)).isSome = true →
      download_feed_item env feed_item base_directory fs = (.ok none, fs, [])) ∧
    (∀ (x : String × String) (fs2 : FS) (ops : List NetOp),
      download_feed_item env feed_item base_directory fs = (.ok (some x), fs2, ops) →
      ∀ env2 : Env, download_feed_item env2 feed_item base_directory fs2 =
        (.ok none, fs2, [])) := by
  constructor
  · intro h
    simp only [download_feed_item]
    rw [if_pos h]
  · intro x fs2 ops h env2
    obtain ⟨c, hc⟩ := dfi_success_sidecar env feed_item base_directory fs x fs2 ops h
    simp only [download_feed_item]
    rw [if_pos (by simp [hc])]

/-- C8: every successful acquisition writes a metadata sidecar whose
`feed_item.video_id` is exactly the input item's identifier and whose
`feed_item.upload_time` is exactly the epoch-seconds conversion of the
input upload timestamp. -/
theorem c8_sidecar_roundtrip (env : Env) (feed_item : FeedItem) (base_directory : String)
    (fs : FS) (x : String × String) (fs2 : FS) (ops : List NetOp)
    (h : download_feed_item env feed_item base_directory fs = (.ok (some x), fs2, ops)) :
    ∃ j : SidecarJson,
      fs2 (json_filename_for base_directory feed_item) = some (.sidecar j) ∧
      j.feed_item.video_id = feed_item.video_id ∧
      j.feed_item.upload_time = to_epoch feed_item.upload_time := by
  obtain ⟨c, hc⟩ := dfi_success_sidecar env feed_item base_directory fs x fs2 ops h
  exact ⟨_, hc, rfl, rfl⟩

/-- C6: in the Split case the two temporary files are absent from the
final file system on every exit path — success, a transfer failure, a
remux failure, and even the `AttributeError` path — given only that they
were fresh (as `mkstemp` guarantees) and that `mkstemp`'s `/tmp` paths
differ from the sidecar path. -/
theorem c6_split_temp_cleanup (env : Env) (feed_item : FeedItem) (base_directory : String)
    (fs : FS) (v a : Option DownloadInfo)
    (hpair : highest_quality_content env.info = .ok (.pair v a))
    (hfv : fs (temp_video_name feed_item) = none)
    (hfa : fs (temp_audio_name feed_item) = none)
    (hjv : temp_video_name feed_item ≠ json_filename_for base_directory feed_item)
    (hja : temp_audio_name feed_item ≠ json_filename_for base_directory feed_item) :
    ∀ (r : Except DLErr (Option (String × String))) (fs2 : FS) (ops : List NetOp),
      download_feed_item env feed_item base_directory fs = (r, fs2, ops) →
      fs2 (temp_video_name feed_item) = none ∧
      fs2 (temp_audio_name feed_item) = none := by
  intro r fs2 ops h
  simp only [download_feed_item, hpair] at h
  split at h
  · simp only [Prod.mk.injEq] at h
    obtain ⟨-, h2, -⟩ := h
    subst h2
    exact ⟨hfv, hfa⟩
  · split at h
    · simp only [Prod.mk.injEq] at h
      obtain ⟨-, h2, -⟩ := h
      subst h2
      exact ⟨hfv, hfa⟩
    · split at h
      · simp only [Prod.mk.injEq] at h
        obtain ⟨-, h2, -⟩ := h
        subst h2
        exact ⟨hfv, hfa⟩
      · split at h
        · simp only [Prod.mk.injEq] at h
          obtain ⟨-, h2, -⟩ := h
          subst h2
          exact ⟨FS.remove_remove_left _ _ _, FS.remove_remove_right _ _ _⟩
        · split at h
          · split at h
            · simp only [Prod.mk.injEq] at h
              obtain ⟨-, h2, -⟩ := h
              subst h2
              constructor
              · rw [write_sidecar, FS.write_other _ _ _ _ hjv]
                exact FS.remove_remove_left _ _ _
              · rw [write_sidecar, FS.write_other _ _ _ _ hja]
                exact FS.remove_remove_right _ _ _
            · simp only [Prod.mk.injEq] at h
              obtain ⟨-, h2, -⟩ := h
              subst h2
              exact ⟨FS.remove_remove_left _ _ _, FS.remove_remove_right _ _ _⟩
          · simp only [Prod.mk.injEq] at h
            obtain ⟨-, h2, -⟩ := h
            subst h2
            exact ⟨FS.remove_remove_left _ _ _, FS.remove_remove_right _ _ _⟩

/-- C5 witness: with the sidecar already on disk, the call returns the
sentinel, the identical file system, and an empty network trace. -/
theorem c5_witness :
    download_feed_item testEnvSingle testItem "out"
      (FS.write emptyFS (json_filename_for "out" testItem) (.media "x")) =
      (.ok none, FS.write emptyFS (json_filename_for "out" testItem) (.media "x"), []) :=
  (c5_already_present_short_circuit testEnvSingle testItem "out"
    (FS.write emptyFS (json_filename_for "out" testItem) (.media "x"))).1 (by decide)

/-- C6 witness: a successful split acquisition leaves no temporary
files. -/
theorem c6_witness :
    (download_feed_item testEnvSplit testItem "out" emptyFS).2.1
      (temp_video_name testItem) = none ∧
    (download_feed_item testEnvSplit testItem "out" emptyFS).2.1
      (temp_audio_name testItem) = none :=
  c6_split_temp_cleanup testEnvSplit testItem "out" emptyFS
    (some (dlOpt 37)) (some (dlOpt 140)) (by decide) rfl rfl (by decide) (by decide)
    (download_feed_item testEnvSplit testItem "out" emptyFS).1
    (download_feed_item testEnvSplit testItem "out" emptyFS).2.1
    (download_feed_item testEnvSplit testItem "out" emptyFS).2.2 rfl

/-- C8 witness: a successful single-stream acquisition writes a sidecar
that round-trips the item's identifier and epoch timestamp. -/
theorem c8_witness :
    ∃ j : SidecarJson,
      (download_feed_item testEnvSingle testItem "out" emptyFS).2.1
        (json_filename_for "out" testItem) = some (.sidecar j) ∧
      j.feed_item.video_id = testItem.video_id ∧
      j.feed_item.upload_time = to_epoch testItem.upload_time :=
  c8_sidecar_roundtrip testEnvSingle testItem "out" emptyFS
    (video_filename_for "out" testItem "mp4", json_filename_for "out" testItem)
    (download_feed_item testEnvSingle testItem "out" emptyFS).2.1
    (download_feed_item testEnvSingle testItem "out" emptyFS).2.2 rfl
